import Mathlib

/-!
Verification development for the author-disambiguation repository
(`disambiguation_pipeline.py`, `disambiguate_authors.py`).

Python floats are modelled by exact rationals (`ℚ`); Python strings by
`String`; SQL `NULL`-able columns by `Option`; database tables by lists of
records in table order.  Every definition is translated from the source
files; the handful of definitions that instead follow the specification's
words (for comparison against the source behaviour) say so in their doc
comments.
-/

namespace Disambig

attribute [local semireducible] Rat.mul Rat.inv Rat.add Rat.sub

/-- Python `str.lower()` / SQL `lower()`: character-wise ASCII lowercasing.
Defined over the character list so that concrete evaluations reduce. -/
def toLowerStr (s : String) : String := ⟨s.data.map Char.toLower⟩

/-- Python `str.strip()`: drop whitespace from both ends.  Defined over the
character list so that concrete evaluations reduce. -/
def trimStr (s : String) : String :=
  ⟨((s.data.dropWhile Char.isWhitespace).reverse.dropWhile Char.isWhitespace).reverse⟩

/-! ### Jaro–Winkler similarity

Both source files call a Jaro–Winkler implementation (`textdistance.jaro_winkler`
in `disambiguate_authors.py`, `jellyfish.jaro_winkler_similarity` in
`disambiguation_pipeline.py`).  Both libraries share the same flag/transposition
core, translated here over `List Char` and `ℚ`; they differ only in the guard on
the Winkler prefix boost. -/

/-- Search range `(max(len1, len2) // 2) - 1`, clamped at `0` (Nat subtraction
performs the same clamp as the Python `if search_range < 0: search_range = 0`). -/
def jaroSearchRange (m n : Nat) : Nat := (max m n) / 2 - 1

/-- First unflagged index `j` with `low ≤ j ≤ hi` and `t[j] = ch`: the inner
`for j in range(low, hi + 1)` loop of the matching pass.  Out-of-range indices
never match (`getD _ true` / `get? = none`). -/
def jaroFindMatch (t : List Char) (flags : List Bool) (ch : Char) (low hi : Nat) :
    Option Nat :=
  (List.range' low (hi + 1 - low)).find? (fun j =>
    !(flags.getD j true) && (t.get? j == some ch))

/-- One step of the matching pass: for source position `i` holding `ch`, flag the
first matching unflagged position of `t` inside the search window. -/
def jaroFlagsStep (t : List Char) (sr : Nat)
    (st : List Bool × List Bool × Nat) (ic : Nat × Char) : List Bool × List Bool × Nat :=
  let (sf, tf, cc) := st
  let (i, ch) := ic
  let low := i - sr
  let hi := min (i + sr) (t.length - 1)
  match jaroFindMatch t tf ch low hi with
  | some j => (sf.set i true, tf.set j true, cc + 1)
  | none => (sf, tf, cc)

/-- The full matching pass: returns the two flag vectors and the number of
common characters. -/
def jaroFlags (s t : List Char) (sr : Nat) : List Bool × List Bool × Nat :=
  s.enum.foldl (jaroFlagsStep t sr)
    (List.replicate s.length false, List.replicate t.length false, 0)

/-- Characters of `s` at flagged positions, in order. -/
def flaggedChars (s : List Char) (flags : List Bool) : List Char :=
  ((s.zip flags).filter (fun p => p.2)).map (fun p => p.1)

/-- Half the number of positions where the flagged subsequences disagree: the
transposition count of the Python implementations (whose inner `for j` always
finds the next flagged position, so the loop is equivalent to walking the two
flagged subsequences in lockstep). -/
def jaroTranspositions (s t : List Char) (sf tf : List Bool) : Nat :=
  (((flaggedChars s sf).zip (flaggedChars t tf)).countP (fun p => p.1 != p.2)) / 2

/-- Jaro similarity: `0` when either string is empty or no characters match,
otherwise `(c/|s| + c/|t| + (c - transpositions)/c) / 3`. -/
def jaroSimilarity (s t : List Char) : ℚ :=
  if s.length = 0 ∨ t.length = 0 then 0 else
  let sr := jaroSearchRange s.length t.length
  let (sf, tf, cc) := jaroFlags s t sr
  if cc = 0 then 0 else
  ((cc : ℚ) / s.length + (cc : ℚ) / t.length
    + ((cc : ℚ) - (jaroTranspositions s t sf tf : ℚ)) / (cc : ℚ)) / 3

/-- Length of the agreeing initial segment of `s` and `t`, looking at most `j`
characters: the `while i < j and s1[i] == s2[i]` prefix loop. -/
def commonMatchedStart (s t : List Char) (j : Nat) : Nat :=
  (((s.zip t).take j).takeWhile (fun p => p.1 == p.2)).length

/-- The `textdistance.jaro_winkler` entry point used by `generate_candidates`:
Jaro similarity plus the Winkler boost (prefix weight `0.1`, up to 4 characters)
whenever the Jaro weight exceeds `0.7`. -/
def jaro_winkler_td (a b : String) : ℚ :=
  let s := a.toList
  let t := b.toList
  let w := jaroSimilarity s t
  if w > 7/10 then
    let i := commonMatchedStart s t (min (min s.length t.length) 4)
    w + (i : ℚ) * (1/10) * (1 - w)
  else w

/-- The `jellyfish.jaro_winkler_similarity` entry point used by
`calculate_name_similarity`: as above, but jellyfish additionally requires both
strings to be longer than 3 characters before boosting. -/
def jaro_winkler_similarity (a b : String) : ℚ :=
  let s := a.toList
  let t := b.toList
  let w := jaroSimilarity s t
  if w > 7/10 ∧ s.length > 3 ∧ t.length > 3 then
    let i := commonMatchedStart s t (min (min s.length t.length) 4)
    w + (i : ℚ) * (1/10) * (1 - w)
  else w

/-! ### `disambiguation_pipeline.py`: data model and mock database -/

/-- The `AuthorProfile` dictionary built by `build_profile_from_db`
(the `identifiers` sub-dictionary is flattened into the two keys it holds). -/
structure AuthorProfile where
  full_name : String
  past_names : List String
  orcid : Option String
  dblp : Option String
  affiliations : List String
  co_authors : List String
  publication_titles : List String
  keywords : List String
deriving DecidableEq

/-- One row of the mock `DB_NAMES` table. -/
structure NameRow where
  author_id : String
  source : String
  last_name : String
  first_name : String
deriving DecidableEq

/-- The mock `DB_NAMES` table. -/
def DB_NAMES : List NameRow :=
  [⟨"o_001", "orcid", "Smith", "John"⟩,
   ⟨"o_002", "orcid", "Doe", "Jane"⟩,
   ⟨"o_003", "orcid", "Madjarov", "Gjorgji"⟩,
   ⟨"d_A", "dblp", "Smith", "J."⟩,
   ⟨"d_B", "dblp", "Smith", "John A."⟩,
   ⟨"d_C", "dblp", "Doe", "John"⟩]

/-- The mock `DB_PAST_NAMES` table: `(author_id, past_name)`. -/
def DB_PAST_NAMES : List (String × String) := [("o_002", "Jane Williams")]

/-- The mock `DB_AFFILIATIONS` table: `(author_id, affiliation)`. -/
def DB_AFFILIATIONS : List (String × String) :=
  [("o_001", "University of California"),
   ("d_A", "Univ. of California"),
   ("d_B", "Stanford University"),
   ("o_002", "MIT"),
   ("d_C", "MIT")]

/-- The mock `DB_PUBLICATIONS` table: `(author_id, title)`. -/
def DB_PUBLICATIONS : List (String × String) :=
  [("o_001", "A Study on Data"),
   ("o_001", "Paper Two"),
   ("d_A", "A Study on Data"),
   ("d_A", "Paper Three"),
   ("o_002", "Intro to AI"),
   ("d_C", "Intro to AI")]

/-- `build_profile_from_db`: assembles an `AuthorProfile` from the mock tables.
The identifier is stored under the `orcid` key exactly when `source == 'orcid'`
and under the `dblp` key otherwise; the first matching `DB_NAMES` row (the
Python loop breaks on the first hit) provides `full_name`; `co_authors` and
`keywords` are never populated (the source leaves them at their defaults with
the comment `(Add queries for co-authors, keywords, etc.)`). -/
def build_profile_from_db (author_id source : String) : AuthorProfile :=
  { full_name :=
      match DB_NAMES.find? (fun r => r.author_id == author_id) with
      | some r => r.first_name ++ " " ++ r.last_name
      | none => ""
    past_names := (DB_PAST_NAMES.filter (fun p => p.1 == author_id)).map (fun p => p.2)
    orcid := if source == "orcid" then some author_id else none
    dblp := if source == "orcid" then none else some author_id
    affiliations := (DB_AFFILIATIONS.filter (fun p => p.1 == author_id)).map (fun p => p.2)
    co_authors := []
    publication_titles :=
      (DB_PUBLICATIONS.filter (fun p => p.1 == author_id)).map (fun p => p.2)
    keywords := [] }

/-! ### `disambiguation_pipeline.py`: similarity signals and scorer -/

/-- Mock `get_name_confidence`: constantly `0.5`. -/
def get_name_confidence (_ : String) : ℚ := 1/2

/-- Mock `get_affiliation_confidence`: constantly `0.5`. -/
def get_affiliation_confidence (_ : String) : ℚ := 1/2

/-- `calculate_name_similarity`: best Jaro–Winkler similarity over the cross
product of `{full name} ∪ past names` (lower-cased) of the two profiles.
The Python version collects the names into sets; duplicates do not change a
maximum, so plain lists are folded here. -/
def calculate_name_similarity (pa pb : AuthorProfile) : ℚ :=
  let names_a := toLowerStr pa.full_name :: pa.past_names.map toLowerStr
  let names_b := toLowerStr pb.full_name :: pb.past_names.map toLowerStr
  names_a.foldl (fun best na =>
    names_b.foldl (fun best nb =>
      let sc := jaro_winkler_similarity na nb
      if sc > best then sc else best) best) 0

/-- The set `{str(item).lower() for item in l if item}`: falsy (empty) strings
are dropped, the rest lower-cased and collected into a set. -/
def lowered_set (l : List String) : Finset String :=
  ((l.filter (fun s => s != "")).map toLowerStr).toFinset

/-- `calculate_jaccard_similarity`: `1.0` when both sets are empty, `0.0` when
exactly one is empty, else `|A ∩ B| / |A ∪ B|`. -/
def calculate_jaccard_similarity (la lb : List String) : ℚ :=
  let sa := lowered_set la
  let sb := lowered_set lb
  if sa = ∅ ∧ sb = ∅ then 1
  else if sa = ∅ ∨ sb = ∅ then 0
  else ((sa ∩ sb).card : ℚ) / ((sa ∪ sb).card : ℚ)

/-- `calculate_id_similarity`: `1.0` iff both profiles carry a truthy (present,
non-empty) `orcid` entry and the two agree; the `dblp` entries are never read. -/
def calculate_id_similarity (pa pb : AuthorProfile) : ℚ :=
  match pa.orcid, pb.orcid with
  | some a, some b => if a ≠ "" ∧ b ≠ "" ∧ a = b then 1 else 0
  | _, _ => 0

/-- The six signals of `calculate_match_score`, in the iteration order of the
`W_BASE` dictionary. -/
inductive Signal
  | ID | PUBS | NAME | COAUTHORS | AFFILIATION | KEYWORDS
deriving DecidableEq

/-- The static base weights `W_BASE`. -/
def W_BASE : Signal → ℚ
  | .ID => 2/5
  | .PUBS => 1/4
  | .NAME => 3/20
  | .COAUTHORS => 1/10
  | .AFFILIATION => 1/20
  | .KEYWORDS => 1/20

/-- The raw similarity `S[key]` of each signal. -/
def sigScore (pa pb : AuthorProfile) : Signal → ℚ
  | .ID => calculate_id_similarity pa pb
  | .PUBS => calculate_jaccard_similarity pa.publication_titles pb.publication_titles
  | .NAME => calculate_name_similarity pa pb
  | .COAUTHORS => calculate_jaccard_similarity pa.co_authors pb.co_authors
  | .AFFILIATION => calculate_jaccard_similarity pa.affiliations pb.affiliations
  | .KEYWORDS => calculate_jaccard_similarity pa.keywords pb.keywords

/-- Average affiliation confidence: `sum(...) / (len(...) or 1)`. -/
def avg_affiliation_confidence (l : List String) : ℚ :=
  (l.map get_affiliation_confidence).sum / (if l.length = 0 then 1 else (l.length : ℚ))

/-- The confidence `C[key]` of each signal. -/
def sigConf (pa pb : AuthorProfile) : Signal → ℚ
  | .ID => 1
  | .PUBS => 9/10
  | .NAME => (get_name_confidence pa.full_name + get_name_confidence pb.full_name) / 2
  | .COAUTHORS => 4/5
  | .AFFILIATION =>
      (avg_affiliation_confidence pa.affiliations
        + avg_affiliation_confidence pb.affiliations) / 2
  | .KEYWORDS => 7/10

/-- The raw weight `RAW_W[key]`: `W_BASE[key] * C[key]` when the raw similarity
strictly exceeds `0.1`, otherwise `W_BASE[key] * 0.1`. -/
def RAW_W (pa pb : AuthorProfile) (k : Signal) : ℚ :=
  if sigScore pa pb k > 1/10 then W_BASE k * sigConf pa pb k else W_BASE k * (1/10)

/-- The keys of `W_BASE` in dictionary insertion order. -/
def signalList : List Signal := [.ID, .PUBS, .NAME, .COAUTHORS, .AFFILIATION, .KEYWORDS]

/-- The sum of the raw weights, `total_raw_weight`. -/
def total_raw_weight (pa pb : AuthorProfile) : ℚ :=
  (signalList.map (RAW_W pa pb)).sum

/-- `calculate_match_score`: returns `0` when the total raw weight is zero and
otherwise the similarity-weighted sum `Σ S[key] * (RAW_W[key] / total)` of the
dynamically normalized weights. -/
def calculate_match_score (pa pb : AuthorProfile) : ℚ :=
  let total := total_raw_weight pa pb
  if total = 0 then 0
  else (signalList.map (fun k => sigScore pa pb k * (RAW_W pa pb k / total))).sum

/-! ### `disambiguation_pipeline.py`: blocking and the batch pipeline -/

/-- Append a value to the block of `key`, creating the block at the end when
missing: the `dict.setdefault(key, []).append(v)` idiom on an insertion-ordered
dictionary. -/
def addToBlock (bl : List (String × List String)) (key v : String) :
    List (String × List String) :=
  match bl.find? (fun p => p.1 == key) with
  | some _ => bl.map (fun p => if p.1 == key then (p.1, p.2 ++ [v]) else p)
  | none => bl ++ [(key, [v])]

/-- The blocking index for one batch: one pass over `DB_NAMES`, keyed by the
lower-cased last name, keeping the ids that belong to the batch. -/
def blocksFor (batch : List String) : List (String × List String) :=
  DB_NAMES.foldl (fun bl row =>
    if batch.contains row.author_id then addToBlock bl (toLowerStr row.last_name) row.author_id
    else bl) []

/-- Candidate pairs: all (orcid id, dblp id) pairs inside blocks whose key
occurs on both sides.  The Python version iterates the key intersection as a
set (unspecified order); the pairs are enumerated here in orcid-block order,
which produces the same pairs as a collection. -/
def candidatePairs (ob dbl : List (String × List String)) : List (String × String) :=
  (ob.filter (fun p => dbl.any (fun q => q.1 == p.1))).flatMap (fun p =>
    let dside : List String :=
      match dbl.find? (fun q => q.1 == p.1) with
      | some q => q.2
      | none => []
    p.2.flatMap (fun oid => dside.map (fun did => (oid, did))))

/-- One row of the result list of `process_disambig_batches`:
`(orcid_id, dblp_id, score, decision)`. -/
structure PipelineResult where
  orcid_id : String
  dblp_id : String
  score : ℚ
  decision : String
deriving DecidableEq

/-- The decision step of `process_disambig_batches` (lines 133–136): `"MATCH"`
exactly when the score strictly exceeds the `0.7` threshold. -/
def pipelineDecision (score : ℚ) : String :=
  if score > 7/10 then "MATCH" else "NO_MATCH"

/-- `process_disambig_batches`: block both batches, enumerate candidate pairs,
build the two profiles (the first always with source `'orcid'`, the second
always with source `'dblp'`), score, and decide. -/
def process_disambig_batches (orcid_batch_ids dblp_batch_ids : List String) :
    List PipelineResult :=
  let ob := blocksFor orcid_batch_ids
  let dbl := blocksFor dblp_batch_ids
  (candidatePairs ob dbl).map (fun p =>
    let pa := build_profile_from_db p.1 "orcid"
    let pb := build_profile_from_db p.2 "dblp"
    let score := calculate_match_score pa pb
    { orcid_id := p.1, dblp_id := p.2, score := score, decision := pipelineDecision score })

/-! ### `disambiguate_authors.py`: data model -/

/-- One row of `public.test_author` (the fields read by the resolver).
`master_author_id` is the nullable foreign key to `master_author`. -/
structure Author where
  id : Nat
  given_name : String
  family_name : String
  orcid_id : Option String
  master_author_id : Option Nat
deriving DecidableEq

/-- One row of `public.master_author`. -/
structure MasterAuthor where
  id : Nat
  canonical_name : String
  primary_orcid : Option String
deriving DecidableEq

/-- The persistent store: the author and master tables in row order, the
`test_authorship` table as `(author_id, publication_id)` pairs, and the next
value of the master-id sequence. -/
structure DBState where
  authors : List Author
  masters : List MasterAuthor
  authorships : List (Nat × Nat)
  next_master_id : Nat
deriving DecidableEq

/-- `INITIAL_MATCH_THRESHOLD = 0.4`. -/
def INITIAL_MATCH_THRESHOLD : ℚ := 2/5

/-- `FINAL_ACCEPT_THRESHOLD = 70.0`. -/
def FINAL_ACCEPT_THRESHOLD : ℚ := 70

/-! ### `disambiguate_authors.py`: step 2, `generate_candidates` -/

/-- The blocking key `(lower(family_name), lower(substring(given_name, 1, 1)))`. -/
def blockKey (r : Author) : String × String :=
  (toLowerStr r.family_name, toLowerStr (r.given_name.take 1))

/-- The records the resolver considers: `WHERE master_author_id IS NULL`. -/
def unresolvedAuthors (s : DBState) : List Author :=
  s.authors.filter (fun r => r.master_author_id.isNone)

/-- The `SELECT DISTINCT` of blocking keys over unresolved authors. -/
def blockKeys (s : DBState) : List (String × String) :=
  ((unresolvedAuthors s).map blockKey).dedup

/-- The rows fetched for one block: unresolved authors with the given key, in
table order. -/
def blockRecords (s : DBState) (k : String × String) : List Author :=
  (unresolvedAuthors s).filter (fun r => decide (blockKey r = k))

/-- The full-name string `f"{given_name} {family_name}".lower()` compared by
the blocker. -/
def fullNameLower (r : Author) : String :=
  toLowerStr (r.given_name ++ " " ++ r.family_name)

/-- The name score of a pair: `textdistance.jaro_winkler(...) * 100`. -/
def scorePair (a b : Author) : ℚ :=
  jaro_winkler_td (fullNameLower a) (fullNameLower b) * 100

/-- One row of `public.match_candidates` right after `generate_candidates`. -/
structure Candidate where
  author_id_a : Nat
  author_id_b : Nat
  name_score : ℚ
deriving DecidableEq

/-- All index pairs `i < j` of a list, in the order of the nested
`for i / for j in range(i + 1, ...)` loops. -/
def pairsOf {α : Type} : List α → List (α × α)
  | [] => []
  | x :: xs => (xs.map (fun y => (x, y))) ++ pairsOf xs

/-- The candidates contributed by one block: nothing when the key has an empty
component (`if not lname or not init: continue`) or the block has fewer than
two rows (`if len(df) < 2: continue`); otherwise every `i < j` pair whose name
score beats `INITIAL_MATCH_THRESHOLD * 100`.  There is no upper bound on the
block size. -/
def blockPairs (s : DBState) (k : String × String) : List Candidate :=
  if k.1 = "" ∨ k.2 = "" then []
  else if (blockRecords s k).length < 2 then []
  else
    (pairsOf (blockRecords s k)).filterMap (fun p =>
      if scorePair p.1 p.2 > INITIAL_MATCH_THRESHOLD * 100 then
        some ⟨p.1.id, p.2.id, scorePair p.1 p.2⟩
      else none)

/-- `generate_candidates`: the concatenation of every block's candidates (the
batched `flush_candidates` inserts preserve exactly this content and order). -/
def generate_candidates (s : DBState) : List Candidate :=
  (blockKeys s).flatMap (blockPairs s)

/-! ### `disambiguate_authors.py`: step 3, `score_and_boost` -/

/-- The publications of an author according to `test_authorship`. -/
def pubsOf (s : DBState) (aid : Nat) : List Nat :=
  (s.authorships.filter (fun p => p.1 == aid)).map (fun p => p.2)

/-- The shared co-author query: `COUNT(DISTINCT t1.author_id)` over authors
other than the pair who have some publication in common with `ida` and some
publication in common with `idb`. -/
def sharedCoauthorCount (s : DBState) (ida idb : Nat) : Nat :=
  (((s.authorships.map (fun p => p.1)).dedup).filter (fun c =>
    !(c == ida) && !(c == idb)
      && (pubsOf s c).any (fun p => (pubsOf s ida).contains p)
      && (pubsOf s c).any (fun p => (pubsOf s idb).contains p))).length

/-- The boost: `min(shared_count * 20, 60)` when any co-author is shared. -/
def boostFor (shared : Nat) : ℚ :=
  if shared > 0 then min ((shared : ℚ) * 20) 60 else 0

/-- One row of `public.match_candidates` after `score_and_boost`. -/
structure ScoredCandidate where
  author_id_a : Nat
  author_id_b : Nat
  name_score : ℚ
  coauthor_boost : ℚ
  total_score : ℚ
deriving DecidableEq

/-- `score_and_boost`: annotates each candidate with its boost and total score
`name_score + boost`. -/
def score_and_boost (s : DBState) (cands : List Candidate) : List ScoredCandidate :=
  cands.map (fun c =>
    let boost := boostFor (sharedCoauthorCount s c.author_id_a c.author_id_b)
    ⟨c.author_id_a, c.author_id_b, c.name_score, boost, c.name_score + boost⟩)

/-! ### `disambiguate_authors.py`: step 4, `cluster_and_merge` -/

/-- The accepted edges: `WHERE total_score >= FINAL_ACCEPT_THRESHOLD`. -/
def acceptedEdges (scored : List ScoredCandidate) : List (Nat × Nat) :=
  (scored.filter (fun c => decide (FINAL_ACCEPT_THRESHOLD ≤ c.total_score))).map
    (fun c => (c.author_id_a, c.author_id_b))

/-- Whether a component touches either endpoint of an edge. -/
def touches (a b : Nat) (c : List Nat) : Bool :=
  decide (a ∈ c ∨ b ∈ c)

/-- Add one undirected edge to a component list: all components touching the
edge are merged with its two endpoints into one; the rest are unchanged. -/
def addEdge (cs : List (List Nat)) (a b : Nat) : List (List Nat) :=
  (a :: b :: (cs.filter (touches a b)).foldr (· ++ ·) []) :: cs.filter (fun c => !(touches a b c))

/-- Connected components of the undirected graph whose nodes are exactly the
endpoints of `edges` — the model of `networkx.Graph` built with
`add_edges_from` followed by `connected_components` (nodes enter the graph
only as edge endpoints). -/
def connComponents (edges : List (Nat × Nat)) : List (List Nat) :=
  edges.foldl (fun cs e => addEdge cs e.1 e.2) []

/-- Truthiness of the `orcid_id` column in `if r.orcid_id:`: present and
non-empty. -/
def truthyOrcid : Option String → Bool
  | some s => s != ""
  | none => false

/-- The representative chosen per cluster. -/
structure BestPick where
  best_name : String
  best_orcid : Option String
deriving DecidableEq

/-- One iteration of the representative-selection loop (lines 281–287): keep
the strictly longer stripped full name, and overwrite `best_orcid` whenever the
row's `orcid_id` is truthy.  The state is `(best_name, best_orcid, longest)`. -/
def pickStep (st : String × Option String × Nat) (r : Author) :
    String × Option String × Nat :=
  let full := trimStr (r.given_name ++ " " ++ r.family_name)
  let st1 :=
    if full.length > st.2.2 then (full, st.2.1, full.length) else st
  if truthyOrcid r.orcid_id then (st1.1, r.orcid_id, st1.2.2) else st1

/-- The representative-selection loop (lines 277–287): the longest (strictly)
full name, starting from `"Unknown"`, and `best_orcid` overwritten by every
truthy `orcid_id` encountered. -/
def pickRepresentative (members : List Author) : BestPick :=
  let fin := members.foldl pickStep ("Unknown", none, 0)
  ⟨fin.1, fin.2.1⟩

/-- The member rows of a cluster, in table order (`WHERE id IN (...)`). -/
def membersOf (s : DBState) (cluster : List Nat) : List Author :=
  s.authors.filter (fun r => cluster.contains r.id)

/-- The identifier-keyed master insert:
`INSERT ... ON CONFLICT (primary_orcid) DO UPDATE SET canonical_name = ...
RETURNING id`.  When a row with this `primary_orcid` exists its name is
refreshed and its id returned; otherwise a fresh row is inserted. -/
def upsertMasterByOrcid (s : DBState) (name orc : String) : DBState × Nat :=
  match s.masters.find? (fun m => m.primary_orcid == some orc) with
  | some m =>
      ({ s with masters := s.masters.map (fun m2 =>
          if m2.primary_orcid == some orc then { m2 with canonical_name := name } else m2) },
        m.id)
  | none =>
      ({ s with
          masters := s.masters ++ [⟨s.next_master_id, name, some orc⟩],
          next_master_id := s.next_master_id + 1 },
        s.next_master_id)

/-- The identifier-less master insert: always a fresh row. -/
def insertMasterNoOrcid (s : DBState) (name : String) : DBState × Nat :=
  ({ s with
      masters := s.masters ++ [⟨s.next_master_id, name, none⟩],
      next_master_id := s.next_master_id + 1 },
    s.next_master_id)

/-- `UPDATE test_author SET master_author_id = :mid WHERE id IN (...)`. -/
def linkMembers (s : DBState) (cluster : List Nat) (mid : Nat) : DBState :=
  { s with authors := s.authors.map (fun r =>
      if cluster.contains r.id then { r with master_author_id := some mid } else r) }

/-- The per-cluster body of `cluster_and_merge`: pick the representative,
create-or-find the master (keyed by the orcid when one was picked — the
`if best_orcid:` truthiness test), and link all members. -/
def mergeCluster (s : DBState) (cluster : List Nat) : DBState :=
  let pick := pickRepresentative (membersOf s cluster)
  let sm :=
    match pick.best_orcid with
    | some orc =>
        if orc ≠ "" then upsertMasterByOrcid s pick.best_name orc
        else insertMasterNoOrcid s pick.best_name
    | none => insertMasterNoOrcid s pick.best_name
  linkMembers sm.1 cluster sm.2

/-- `cluster_and_merge`: connected components of the accepted edges, merged in
order.  The early `if df_edges.empty: return` of the source coincides with
folding over the empty cluster list. -/
def cluster_and_merge (s : DBState) (scored : List ScoredCandidate) : DBState :=
  (connComponents (acceptedEdges scored)).foldl mergeCluster s

/-- The accepted edges of one full resolution run on `s`. -/
def runAccepted (s : DBState) : List (Nat × Nat) :=
  acceptedEdges (score_and_boost s (generate_candidates s))

/-- The clusters of one full resolution run on `s`. -/
def runClusters (s : DBState) : List (List Nat) :=
  connComponents (runAccepted s)

/-- One full resolution run (`main`): generate candidates, score, cluster and
merge. -/
def resolutionRun (s : DBState) : DBState :=
  cluster_and_merge s (score_and_boost s (generate_candidates s))

/-- Number of master rows carrying a given `primary_orcid`. -/
def countOrcid (ms : List MasterAuthor) (x : String) : Nat :=
  ms.countP (fun m => m.primary_orcid == some x)

/-- Some master row carries the given `primary_orcid`. -/
def orcidPresent (ms : List MasterAuthor) (x : String) : Prop :=
  ∃ m ∈ ms, m.primary_orcid = some x

instance (ms : List MasterAuthor) (x : String) : Decidable (orcidPresent ms x) :=
  inferInstanceAs (Decidable (∃ m ∈ ms, m.primary_orcid = some x))

/-- Components are disjoint: no id belongs to both. -/
def Disj (c d : List Nat) : Prop := ∀ x, x ∈ c → x ∉ d

/-- Modelled from the spec ("choose a canonical external identifier as the
first non-empty one found among members"): the first truthy `orcid_id` in
iteration order, for comparison with `pickRepresentative`. -/
def firstTruthyOrcid (members : List Author) : Option String :=
  (members.find? (fun r => truthyOrcid r.orcid_id)).bind (fun r => r.orcid_id)

/-- The last truthy `orcid_id` in iteration order. -/
def lastTruthyOrcid (members : List Author) : Option String :=
  (members.reverse.find? (fun r => truthyOrcid r.orcid_id)).bind (fun r => r.orcid_id)

/-! ### Concrete states used by the claim witnesses and counterexamples -/

/-- A store holding a single unresolved author with a unique name and no
identifier. -/
def singletonState : DBState :=
  ⟨[⟨1, "Alice", "Zhang", none, none⟩], [], [], 1⟩

/-- A store with two matching unresolved authors (ids 1 and 2) and one
unresolved author (id 3) that matches nobody. -/
def threeAuthorState : DBState :=
  ⟨[⟨1, "Ann", "Li", none, none⟩,
    ⟨2, "Ann", "Li", none, none⟩,
    ⟨3, "Bob", "Wu", none, none⟩], [], [], 1⟩

/-- A store whose single block holds three identically-named unresolved
authors. -/
def bigBlockState : DBState :=
  ⟨[⟨1, "Ann", "Li", none, none⟩,
    ⟨2, "Ann", "Li", none, none⟩,
    ⟨3, "Ann", "Li", none, none⟩], [], [], 1⟩

/-- A store where ids 1 and 2 match and id 1 carries an ORCID, so one run
creates an identifier-keyed master. -/
def orcidPairState : DBState :=
  ⟨[⟨1, "Ann", "Li", some "0000-0001", none⟩,
    ⟨2, "Ann", "Li", none, none⟩], [], [], 1⟩

/-- A profile pair carrying the same exact identifier and nothing else. -/
def idOnlyProfile : AuthorProfile :=
  ⟨"", [], some "0000-0001", none, [], [], [], []⟩

/-- A profile with no identifiers, no name, and a single one-word affiliation. -/
def affOnlyProfile : AuthorProfile :=
  ⟨"", [], none, none, ["mit"], [], [], []⟩

/-! ### Helper lemmas: connected components form a partition of the edge
endpoints -/

theorem disj_symmetric : Symmetric Disj := by
  intro c d h x hxd hxc
  exact h x hxc hxd

theorem mem_foldr_append {ls : List (List Nat)} {x : Nat} :
    x ∈ ls.foldr (· ++ ·) [] ↔ ∃ c ∈ ls, x ∈ c := by
  induction ls with
  | nil => simp
  | cons h t ih => simp [List.mem_append, ih]

theorem touches_eq_false {a b : Nat} {c : List Nat} (h : touches a b c = false) :
    a ∉ c ∧ b ∉ c := by
  simp only [touches, decide_eq_false_iff_not, not_or] at h
  exact h

theorem addEdge_pairwise {cs : List (List Nat)} {a b : Nat}
    (h : cs.Pairwise Disj) : (addEdge cs a b).Pairwise Disj := by
  unfold addEdge
  refine List.Pairwise.cons ?_ (h.sublist (List.filter_sublist cs))
  intro d hd x hx hxd
  rcases List.mem_filter.1 hd with ⟨hdcs, hdf⟩
  have hdt := touches_eq_false (by simpa using hdf)
  rcases List.mem_cons.1 hx with rfl | hx
  · exact hdt.1 hxd
  rcases List.mem_cons.1 hx with rfl | hx
  · exact hdt.2 hxd
  · rcases mem_foldr_append.1 hx with ⟨e, he, hxe⟩
    rcases List.mem_filter.1 he with ⟨hecs, het⟩
    have het' : touches a b e = true := by simpa using het
    have hdf' : touches a b d = false := by simpa using hdf
    have hne : e ≠ d := by
      intro hq
      rw [hq] at het'
      rw [het'] at hdf'
      exact absurd hdf' (by decide)
    exact h.forall disj_symmetric hecs hdcs hne x hxe hxd

theorem addEdge_covers_endpoints (cs : List (List Nat)) (a b : Nat) :
    ∃ c ∈ addEdge cs a b, a ∈ c ∧ b ∈ c := by
  refine ⟨a :: b :: (cs.filter (touches a b)).foldr (· ++ ·) [], ?_, ?_, ?_⟩
  · unfold addEdge; exact List.mem_cons_self _ _
  · exact List.mem_cons_self _ _
  · exact List.mem_cons_of_mem _ (List.mem_cons_self _ _)

theorem addEdge_covers_mono {cs : List (List Nat)} {x : Nat} (a b : Nat)
    (h : ∃ c ∈ cs, x ∈ c) : ∃ c ∈ addEdge cs a b, x ∈ c := by
  rcases h with ⟨c, hc, hx⟩
  by_cases ht : touches a b c = true
  · refine ⟨a :: b :: (cs.filter (touches a b)).foldr (· ++ ·) [], ?_, ?_⟩
    · unfold addEdge; exact List.mem_cons_self _ _
    · exact List.mem_cons_of_mem _ (List.mem_cons_of_mem _
        (mem_foldr_append.2 ⟨c, List.mem_filter.2 ⟨hc, ht⟩, hx⟩))
  · refine ⟨c, ?_, hx⟩
    unfold addEdge
    exact List.mem_cons_of_mem _
      (List.mem_filter.2 ⟨hc, by simp [Bool.eq_false_iff.2 ht]⟩)

theorem foldl_addEdge_pairwise :
    ∀ (edges : List (Nat × Nat)) (cs : List (List Nat)), cs.Pairwise Disj →
      (edges.foldl (fun cs e => addEdge cs e.1 e.2) cs).Pairwise Disj := by
  intro edges
  induction edges with
  | nil => intro cs h; exact h
  | cons e t ih => intro cs h; exact ih _ (addEdge_pairwise h)

theorem foldl_addEdge_covers_mono :
    ∀ (edges : List (Nat × Nat)) (cs : List (List Nat)) (x : Nat),
      (∃ c ∈ cs, x ∈ c) →
      ∃ c ∈ edges.foldl (fun cs e => addEdge cs e.1 e.2) cs, x ∈ c := by
  intro edges
  induction edges with
  | nil => intro cs x h; exact h
  | cons e t ih => intro cs x h; exact ih _ _ (addEdge_covers_mono e.1 e.2 h)

theorem foldl_addEdge_covers :
    ∀ (edges : List (Nat × Nat)) (cs : List (List Nat)),
      ∀ e ∈ edges,
        (∃ c ∈ edges.foldl (fun cs e => addEdge cs e.1 e.2) cs, e.1 ∈ c) ∧
        (∃ c ∈ edges.foldl (fun cs e => addEdge cs e.1 e.2) cs, e.2 ∈ c) := by
  intro edges
  induction edges with
  | nil => intro cs e h; exact absurd h (List.not_mem_nil e)
  | cons e0 t ih =>
    intro cs e h
    rcases List.mem_cons.1 h with rfl | h
    · rcases addEdge_covers_endpoints cs e.1 e.2 with ⟨c, hc, h1, h2⟩
      exact ⟨foldl_addEdge_covers_mono t _ _ ⟨c, hc, h1⟩,
             foldl_addEdge_covers_mono t _ _ ⟨c, hc, h2⟩⟩
    · exact ih _ e h

theorem countP_mem_eq_zero {cs : List (List Nat)} {x : Nat}
    (h : ∀ c ∈ cs, x ∉ c) : cs.countP (fun c => decide (x ∈ c)) = 0 := by
  rw [List.countP_eq_zero]
  intro c hc
  simpa using h c hc

theorem countP_mem_eq_one {cs : List (List Nat)} {x : Nat} {c : List Nat}
    (hp : cs.Pairwise Disj) (hc : c ∈ cs) (hx : x ∈ c) :
    cs.countP (fun c => decide (x ∈ c)) = 1 := by
  induction cs with
  | nil => exact absurd hc (List.not_mem_nil c)
  | cons h0 t ih =>
    rcases List.mem_cons.1 hc with rfl | hct
    · rw [List.countP_cons_of_pos _ _ (by simpa using hx)]
      rw [countP_mem_eq_zero (fun d hd => (List.pairwise_cons.1 hp).1 d hd x hx)]
    · have hxh : x ∉ h0 := fun hxh =>
        (List.pairwise_cons.1 hp).1 c hct x hxh hx
      rw [List.countP_cons_of_neg _ _ (by simpa using hxh)]
      exact ih (List.pairwise_cons.1 hp).2 hct

/-! ### Helper lemmas: pair enumeration inside a block -/

theorem mem_pairsOf {α : Type} {l : List α} {p : α × α} (h : p ∈ pairsOf l) :
    p.1 ∈ l ∧ p.2 ∈ l := by
  induction l with
  | nil => exact absurd h (List.not_mem_nil p)
  | cons x xs ih =>
    rcases List.mem_append.1 h with h1 | h2
    · rcases List.mem_map.1 h1 with ⟨y, hy, hq⟩
      subst hq
      exact ⟨List.mem_cons_self _ _, List.mem_cons_of_mem _ hy⟩
    · rcases ih h2 with ⟨ha, hb⟩
      exact ⟨List.mem_cons_of_mem _ ha, List.mem_cons_of_mem _ hb⟩

theorem pairsOf_complete {α : Type} {a b : α} :
    ∀ {l : List α}, [a, b].Sublist l → (a, b) ∈ pairsOf l := by
  intro l
  induction l with
  | nil => intro h; exact absurd (h.length_le) (by simp)
  | cons x xs ih =>
    intro h
    cases h with
    | cons _ h' => exact List.mem_append_right _ (ih h')
    | cons₂ _ h' =>
      exact List.mem_append_left _
        (List.mem_map.2 ⟨b, List.singleton_sublist.1 h', rfl⟩)

/-! ### Helper lemmas: the orcid chosen by the representative loop is the last
truthy one -/

theorem pickStep_orcid (st : String × Option String × Nat) (r : Author) :
    (pickStep st r).2.1 =
      if truthyOrcid r.orcid_id then r.orcid_id else st.2.1 := by
  unfold pickStep
  by_cases h1 : truthyOrcid r.orcid_id <;>
    by_cases h2 : (trimStr (r.given_name ++ " " ++ r.family_name)).length > st.2.2 <;>
    simp [h1, h2]

theorem foldl_pickStep_orcid :
    ∀ (l : List Author) (st : String × Option String × Nat),
      (l.foldl pickStep st).2.1 =
        l.foldl (fun bo r => if truthyOrcid r.orcid_id then r.orcid_id else bo) st.2.1 := by
  intro l
  induction l with
  | nil => intro st; rfl
  | cons r t ih =>
    intro st
    rw [List.foldl_cons, List.foldl_cons, ih, pickStep_orcid]

theorem foldl_orcid_eq_reverse_find :
    ∀ (l : List Author) (bo : Option String),
      l.foldl (fun bo r => if truthyOrcid r.orcid_id then r.orcid_id else bo) bo =
        match l.reverse.find? (fun r => truthyOrcid r.orcid_id) with
        | some r => r.orcid_id
        | none => bo := by
  intro l
  induction l with
  | nil => intro bo; rfl
  | cons r t ih =>
    intro bo
    rw [List.foldl_cons, ih, List.reverse_cons, List.find?_append]
    cases hf : t.reverse.find? (fun r => truthyOrcid r.orcid_id) with
    | some r2 => simp [Option.orElse]
    | none =>
      by_cases ht : truthyOrcid r.orcid_id <;> simp [Option.orElse, List.find?, ht]

/-! ### Helper lemmas: master-row counting through a merge -/

theorem refresh_preserves_orcid (m2 : MasterAuthor) (name orc : String) :
    ((if m2.primary_orcid == some orc then { m2 with canonical_name := name }
      else m2) : MasterAuthor).primary_orcid = m2.primary_orcid := by
  split <;> rfl

theorem countOrcid_insertNoOrcid (s : DBState) (name x : String) :
    countOrcid (insertMasterNoOrcid s name).1.masters x = countOrcid s.masters x := by
  simp [insertMasterNoOrcid, countOrcid, List.countP_append, List.countP_cons]

theorem orcidPresent_insertNoOrcid {s : DBState} {x : String} (name : String)
    (h : orcidPresent s.masters x) :
    orcidPresent (insertMasterNoOrcid s name).1.masters x := by
  rcases h with ⟨m, hm, hx⟩
  exact ⟨m, List.mem_append_left _ hm, hx⟩

theorem countOrcid_upsert {s : DBState} {x : String} (name orc : String)
    (h : orcidPresent s.masters x) :
    countOrcid (upsertMasterByOrcid s name orc).1.masters x = countOrcid s.masters x := by
  unfold upsertMasterByOrcid
  cases hf : s.masters.find? (fun m => m.primary_orcid == some orc) with
  | some m =>
    simp only
    rw [countOrcid, List.countP_map]
    apply List.countP_congr
    intro m2 _
    simp only [Function.comp]
    split <;> simp
  | none =>
    simp only
    have hne : orc ≠ x := by
      rcases h with ⟨m, hm, hx⟩
      intro hq
      subst hq
      have := List.find?_eq_none.1 hf m hm
      rw [hx] at this
      simp at this
    rw [countOrcid, List.countP_append, List.countP_cons]
    simp [countOrcid, beq_eq_false_iff_ne, hne]

theorem orcidPresent_upsert {s : DBState} {x : String} (name orc : String)
    (h : orcidPresent s.masters x) :
    orcidPresent (upsertMasterByOrcid s name orc).1.masters x := by
  unfold upsertMasterByOrcid
  rcases h with ⟨m, hm, hx⟩
  cases hf : s.masters.find? (fun m => m.primary_orcid == some orc) with
  | some m0 =>
    simp only
    refine ⟨(if m.primary_orcid == some orc then { m with canonical_name := name }
      else m), List.mem_map_of_mem _ hm, ?_⟩
    rw [refresh_preserves_orcid]
    exact hx
  | none =>
    exact ⟨m, List.mem_append_left _ hm, hx⟩

theorem mergeCluster_masters {s : DBState} {x : String} (cluster : List Nat)
    (h : orcidPresent s.masters x) :
    countOrcid (mergeCluster s cluster).masters x = countOrcid s.masters x ∧
    orcidPresent (mergeCluster s cluster).masters x := by
  unfold mergeCluster linkMembers
  cases hp : (pickRepresentative (membersOf s cluster)).best_orcid with
  | some orc =>
    by_cases ho : orc ≠ ""
    · simp only [hp, if_pos ho]
      exact ⟨countOrcid_upsert _ orc h, orcidPresent_upsert _ orc h⟩
    · simp only [hp, if_neg ho]
      exact ⟨countOrcid_insertNoOrcid s _ x, orcidPresent_insertNoOrcid _ h⟩
  | none =>
    simp only [hp]
    exact ⟨countOrcid_insertNoOrcid s _ x, orcidPresent_insertNoOrcid _ h⟩

theorem foldl_mergeCluster_masters {x : String} :
    ∀ (clusters : List (List Nat)) (s : DBState), orcidPresent s.masters x →
      countOrcid (clusters.foldl mergeCluster s).masters x = countOrcid s.masters x ∧
      orcidPresent (clusters.foldl mergeCluster s).masters x := by
  intro clusters
  induction clusters with
  | nil => intro s h; exact ⟨rfl, h⟩
  | cons c t ih =>
    intro s h
    rcases mergeCluster_masters c h with ⟨hc, hpres⟩
    rcases ih (mergeCluster s c) hpres with ⟨hc2, hpres2⟩
    exact ⟨by rw [List.foldl_cons, hc2, hc], by rw [List.foldl_cons]; exact hpres2⟩

theorem resolutionRun_masters {s : DBState} {x : String}
    (h : orcidPresent s.masters x) :
    countOrcid (resolutionRun s).masters x = countOrcid s.masters x ∧
    orcidPresent (resolutionRun s).masters x :=
  foldl_mergeCluster_masters _ s h

/-! ### Helper lemmas: emptiness of the lower-cased filtered set -/

theorem empty_lowered_set (l : List String) :
    lowered_set l = ∅ ↔ ∀ s ∈ l, s = "" := by
  unfold lowered_set
  rw [List.toFinset_eq_empty_iff, List.map_eq_nil_iff, List.filter_eq_nil_iff]
  constructor
  · intro h s hs
    by_contra hne
    exact h s hs (by simpa using hne)
  · intro h s hs hne
    rw [h s hs] at hne
    simp at hne

theorem nonempty_lowered_set {l : List String} (h : ∃ s ∈ l, s ≠ "") :
    lowered_set l ≠ ∅ := by
  intro he
  rcases h with ⟨s, hs, hne⟩
  exact hne ((empty_lowered_set l).1 he s hs)

/-! ## The claims -/

/-- Claim C1 (code bug): the claim says a record with zero accepted duplicate
pairs still yields a master entity and is marked resolved.  The code builds the
candidate graph from accepted edges only, so a record in no accepted pair
belongs to no cluster: on a store holding exactly one unresolved author the
whole run is the identity — no `MasterAuthor` is created and the record stays
unresolved. -/
theorem singleton_gets_no_master :
    resolutionRun singletonState = singletonState ∧
    (resolutionRun singletonState).masters = [] ∧
    ((resolutionRun singletonState).authors.all
      (fun r => r.master_author_id.isNone)) = true := by decide

/-- Claim C2, counterexample: author 3 of `threeAuthorState` is unresolved and
under consideration, the run produces a (nonempty) cluster list, yet id 3
appears in zero clusters — so the clusters do not cover every unresolved id. -/
theorem unresolved_id_in_no_cluster :
    (⟨3, "Bob", "Wu", none, none⟩ : Author) ∈ unresolvedAuthors threeAuthorState ∧
    (runClusters threeAuthorState).countP (fun c => decide (3 ∈ c)) = 0 ∧
    runClusters threeAuthorState ≠ [] := by decide

/-- Claim C2 (amended): the clusters of one resolution run are pairwise
disjoint, and every record id incident to an accepted edge appears in exactly
one cluster; ids in no accepted pair appear in no cluster. -/
theorem run_clusters_partition (s : DBState) :
    (runClusters s).Pairwise Disj ∧
    ∀ e ∈ runAccepted s,
      (runClusters s).countP (fun c => decide (e.1 ∈ c)) = 1 ∧
      (runClusters s).countP (fun c => decide (e.2 ∈ c)) = 1 := by
  have hp : (runClusters s).Pairwise Disj :=
    foldl_addEdge_pairwise (runAccepted s) [] List.Pairwise.nil
  refine ⟨hp, ?_⟩
  intro e he
  have hcov := foldl_addEdge_covers (runAccepted s) [] e he
  rcases hcov.1 with ⟨c1, hc1, hx1⟩
  rcases hcov.2 with ⟨c2, hc2, hx2⟩
  exact ⟨countP_mem_eq_one hp hc1 hx1, countP_mem_eq_one hp hc2 hx2⟩

/-- Claim C2, witness: on `threeAuthorState`, the accepted edge `(1, 2)` places
each of ids 1 and 2 in exactly one cluster. -/
theorem run_clusters_partition_witness :
    (runClusters threeAuthorState).countP (fun c => decide (1 ∈ c)) = 1 ∧
    (runClusters threeAuthorState).countP (fun c => decide (2 ∈ c)) = 1 :=
  (run_clusters_partition threeAuthorState).2 (1, 2) (by decide)

/-- Claim C3, counterexample: comparing two empty attribute lists yields
`1.0`, not the claimed `0`. -/
theorem jaccard_both_empty_not_zero :
    calculate_jaccard_similarity ([] : List String) [] = 1 ∧ (1 : ℚ) ≠ 0 := by decide

/-- Claim C3 (amended): the set-overlap signal returns the Jaccard index over
the lower-cased sets when both sets are non-empty and `0` when exactly one set
is empty; comparing two empty sets yields `1.0` (both-empty is treated as a
perfect match), not `0`.  A set is empty exactly when every list entry is the
empty string. -/
theorem jaccard_signal_cases (la lb : List String) :
    (lowered_set la = ∅ ↔ ∀ s ∈ la, s = "") ∧
    ((∀ s ∈ la, s = "") → (∀ s ∈ lb, s = "") →
        calculate_jaccard_similarity la lb = 1) ∧
    ((∀ s ∈ la, s = "") → (∃ s ∈ lb, s ≠ "") →
        calculate_jaccard_similarity la lb = 0) ∧
    ((∃ s ∈ la, s ≠ "") → (∀ s ∈ lb, s = "") →
        calculate_jaccard_similarity la lb = 0) ∧
    ((∃ s ∈ la, s ≠ "") → (∃ s ∈ lb, s ≠ "") →
        calculate_jaccard_similarity la lb
          = ((lowered_set la ∩ lowered_set lb).card : ℚ)
            / ((lowered_set la ∪ lowered_set lb).card : ℚ)) := by
  refine ⟨empty_lowered_set la, ?_, ?_, ?_, ?_⟩
  · intro h1 h2
    unfold calculate_jaccard_similarity
    rw [if_pos ⟨(empty_lowered_set la).2 h1, (empty_lowered_set lb).2 h2⟩]
  · intro h1 h2
    unfold calculate_jaccard_similarity
    rw [if_neg (fun hc => nonempty_lowered_set h2 hc.2),
        if_pos (Or.inl ((empty_lowered_set la).2 h1))]
  · intro h1 h2
    unfold calculate_jaccard_similarity
    rw [if_neg (fun hc => nonempty_lowered_set h1 hc.1),
        if_pos (Or.inr ((empty_lowered_set lb).2 h2))]
  · intro h1 h2
    unfold calculate_jaccard_similarity
    rw [if_neg (fun hc => nonempty_lowered_set h1 hc.1),
        if_neg (fun hc => hc.elim (nonempty_lowered_set h1) (nonempty_lowered_set h2))]

/-- Claim C3, witness: a list holding only empty strings against a non-empty
one scores `0`. -/
theorem jaccard_signal_cases_witness :
    calculate_jaccard_similarity ["", ""] ["x"] = 0 :=
  (jaccard_signal_cases ["", ""] ["x"]).2.2.1 (by decide) (by decide)

/-- Claim C4 (code bug): the identifier-only pair does score above the `0.7`
threshold (`148/151 ≈ 0.98`) as the claim demands, but the pair with no
identifiers, no name, and only a one-word affiliation overlap scores
`73/84 ≈ 0.87`, also above the threshold — the empty co-author, publication and
keyword lists each contribute a both-empty Jaccard of `1.0` at full weight, so
zero-evidence signals dominate. -/
theorem zero_evidence_dominates :
    calculate_match_score idOnlyProfile idOnlyProfile = 148/151 ∧
    ((148 : ℚ)/151 ≥ 7/10) ∧
    calculate_match_score affOnlyProfile affOnlyProfile = 73/84 ∧
    ((73 : ℚ)/84 ≥ 7/10) := by decide

/-- Claim C5, counterexample: for the NAME signal of the affiliation-only pair
the raw similarity is `0` (below the floor) and the confidence is `1/2`, yet the
raw weight is `W_BASE * 0.1 = 3/200`, not the claimed
`W_BASE * (confidence * 0.1) = 3/400` — the penalty branch discards the
confidence. -/
theorem raw_weight_drops_confidence :
    sigScore affOnlyProfile affOnlyProfile Signal.NAME = 0 ∧
    sigConf affOnlyProfile affOnlyProfile Signal.NAME = 1/2 ∧
    RAW_W affOnlyProfile affOnlyProfile Signal.NAME = 3/200 ∧
    W_BASE Signal.NAME * (sigConf affOnlyProfile affOnlyProfile Signal.NAME * (1/10))
      = 3/400 ∧
    ((3 : ℚ)/200 ≠ 3/400) := by decide

/-- Claim C5 (amended): a signal whose raw similarity is at or below the `0.1`
floor gets raw weight `base_weight * 0.1` (the confidence is not used in the
penalized branch), and a signal strictly above the floor gets
`base_weight * confidence`. -/
theorem raw_weight_rule (pa pb : AuthorProfile) (k : Signal) :
    (sigScore pa pb k ≤ 1/10 → RAW_W pa pb k = W_BASE k * (1/10)) ∧
    (1/10 < sigScore pa pb k → RAW_W pa pb k = W_BASE k * sigConf pa pb k) := by
  constructor
  · intro h
    rw [RAW_W, if_neg (not_lt.2 h)]
  · intro h
    rw [RAW_W, if_pos h]

/-- Claim C5, witness: the identifier signal of the identifier-only pair sits
above the floor, so its raw weight is `base_weight * confidence`. -/
theorem raw_weight_rule_witness :
    RAW_W idOnlyProfile idOnlyProfile Signal.ID
      = W_BASE Signal.ID * sigConf idOnlyProfile idOnlyProfile Signal.ID :=
  (raw_weight_rule idOnlyProfile idOnlyProfile Signal.ID).2 (by decide)

/-- Claim C6, counterexample: with two members whose truthy identifiers are
`"X"` then `"Y"`, the first non-empty identifier is `"X"` but the loop keeps
`"Y"` — the later one, not the first. -/
theorem canonical_orcid_not_first :
    (pickRepresentative
      [⟨1, "A", "B", some "X", none⟩, ⟨2, "Ann", "Lee", some "Y", none⟩]).best_orcid
        = some "Y" ∧
    firstTruthyOrcid
      [⟨1, "A", "B", some "X", none⟩, ⟨2, "Ann", "Lee", some "Y", none⟩]
        = some "X" ∧
    (some "Y" : Option String) ≠ some "X" := by decide

/-- Claim C6 (amended): the canonical external identifier chosen per cluster is
the LAST truthy (present, non-empty) identifier encountered among the members
in iteration order — every later truthy identifier overwrites the earlier one,
and nothing is logged. -/
theorem canonical_orcid_is_last (members : List Author) :
    (pickRepresentative members).best_orcid = lastTruthyOrcid members := by
  unfold pickRepresentative
  simp only
  rw [foldl_pickStep_orcid, foldl_orcid_eq_reverse_find]
  unfold lastTruthyOrcid
  cases members.reverse.find? (fun r => truthyOrcid r.orcid_id) with
  | none => rfl
  | some r => rfl

/-- Claim C7, counterexample: the block `("li", "a")` of `bigBlockState` has 3
members — more than a putative ceiling of 2 — yet it is not skipped: it
produces 3 candidate pairs, because `generate_candidates` has no block-size
ceiling at all. -/
theorem oversized_block_not_skipped :
    (blockRecords bigBlockState ("li", "a")).length = 3 ∧
    2 < (blockRecords bigBlockState ("li", "a")).length ∧
    (blockPairs bigBlockState ("li", "a")).length = 3 := by decide

/-- Claim C7 (amended): a block with fewer than 2 members produces zero
candidate pairs; there is no block-size safety ceiling — whatever the block
size, every ordered pair of unresolved same-key records whose name score beats
the prefilter threshold is emitted as a candidate. -/
theorem block_pair_generation :
    (∀ (s : DBState) (k : String × String),
        (blockRecords s k).length < 2 → blockPairs s k = []) ∧
    (∀ (s : DBState) (r1 r2 : Author),
        [r1, r2].Sublist s.authors →
        r1.master_author_id = none → r2.master_author_id = none →
        blockKey r1 = blockKey r2 →
        (blockKey r1).1 ≠ "" → (blockKey r1).2 ≠ "" →
        scorePair r1 r2 > 40 →
        (⟨r1.id, r2.id, scorePair r1 r2⟩ : Candidate) ∈ generate_candidates s) := by
  constructor
  · intro s k h
    unfold blockPairs
    by_cases hk : k.1 = "" ∨ k.2 = ""
    · rw [if_pos hk]
    · rw [if_neg hk, if_pos h]
  · intro s r1 r2 hsub h1 h2 hkey hk1 hk2 hscore
    have hf1 : r1.master_author_id.isNone = true := by rw [h1]; rfl
    have hf2 : r2.master_author_id.isNone = true := by rw [h2]; rfl
    have hsub1 : [r1, r2].Sublist (unresolvedAuthors s) := by
      have h' := hsub.filter (fun r => r.master_author_id.isNone)
      simpa [unresolvedAuthors, List.filter_cons, hf1, hf2] using h'
    have hk2eq : blockKey r2 = blockKey r1 := hkey.symm
    have hsub2 : [r1, r2].Sublist (blockRecords s (blockKey r1)) := by
      have h' := hsub1.filter (fun r => decide (blockKey r = blockKey r1))
      simpa [blockRecords, List.filter_cons, hk2eq] using h'
    have hmem_pairs : (r1, r2) ∈ pairsOf (blockRecords s (blockKey r1)) :=
      pairsOf_complete hsub2
    have hlen : ¬ (blockRecords s (blockKey r1)).length < 2 := by
      have := hsub2.length_le
      simp only [List.length_cons, List.length_singleton] at this
      omega
    have hkmem : blockKey r1 ∈ blockKeys s :=
      List.mem_dedup.2 (List.mem_map.2 ⟨r1, hsub1.subset (by simp), rfl⟩)
    have hbp : (⟨r1.id, r2.id, scorePair r1 r2⟩ : Candidate)
        ∈ blockPairs s (blockKey r1) := by
      unfold blockPairs
      rw [if_neg (by push_neg; exact ⟨hk1, hk2⟩), if_neg hlen]
      apply List.mem_filterMap.2
      refine ⟨(r1, r2), hmem_pairs, ?_⟩
      have hth : scorePair r1 r2 > INITIAL_MATCH_THRESHOLD * 100 := by
        have : INITIAL_MATCH_THRESHOLD * 100 = 40 := by decide
        rw [this]
        exact hscore
      simp only [if_pos hth]
    exact List.mem_flatMap.2 ⟨blockKey r1, hkmem, hbp⟩

/-- Claim C7, witness: an empty block contributes nothing, and inside the
3-member block of `bigBlockState` the qualifying pair `(1, 2)` (name score 100)
is emitted. -/
theorem block_pair_generation_witness :
    blockPairs bigBlockState ("zz", "z") = [] ∧
    (⟨1, 2, 100⟩ : Candidate) ∈ generate_candidates bigBlockState := by
  constructor
  · exact block_pair_generation.1 bigBlockState ("zz", "z") (by decide)
  · have h := block_pair_generation.2 bigBlockState
      ⟨1, "Ann", "Li", none, none⟩ ⟨2, "Ann", "Li", none, none⟩
      (by decide) rfl rfl rfl (by decide) (by decide) (by decide)
    have hs : scorePair (⟨1, "Ann", "Li", none, none⟩ : Author)
        ⟨2, "Ann", "Li", none, none⟩ = 100 := by decide
    rw [hs] at h
    exact h

/-- Claim C8 (confirmed): an identifier that already owns a master row keeps
exactly the same number of master rows across a repeated run (so re-running
resolution creates no duplicate masters for already-identifier-linked records);
both sides of every generated candidate are unresolved records; and the
identifier-keyed insert is an upsert — when a master with that identifier
exists, the table size does not change. -/
theorem resolution_idempotent :
    (∀ (s : DBState) (x : String),
        orcidPresent (resolutionRun s).masters x →
        countOrcid (resolutionRun (resolutionRun s)).masters x
          = countOrcid (resolutionRun s).masters x) ∧
    (∀ (s : DBState) (c : Candidate), c ∈ generate_candidates s →
        (∃ r ∈ s.authors, r.id = c.author_id_a ∧ r.master_author_id = none) ∧
        (∃ r ∈ s.authors, r.id = c.author_id_b ∧ r.master_author_id = none)) ∧
    (∀ (s : DBState) (name orc : String),
        orcidPresent s.masters orc →
        (upsertMasterByOrcid s name orc).1.masters.length = s.masters.length) := by
  refine ⟨?_, ?_, ?_⟩
  · intro s x h
    exact (resolutionRun_masters h).1
  · intro s c hc
    rcases List.mem_flatMap.1 hc with ⟨k, _, hbp⟩
    unfold blockPairs at hbp
    split at hbp
    · exact absurd hbp (List.not_mem_nil c)
    · split at hbp
      · exact absurd hbp (List.not_mem_nil c)
      · rcases List.mem_filterMap.1 hbp with ⟨p, hp, he⟩
        have hmem := mem_pairsOf hp
        have hrec : ∀ r ∈ blockRecords s k,
            r ∈ s.authors ∧ r.master_author_id = none := by
          intro r hr
          rcases List.mem_filter.1 hr with ⟨hru, _⟩
          rcases List.mem_filter.1 hru with ⟨hra, hrn⟩
          exact ⟨hra, Option.isNone_iff_eq_none.1 hrn⟩
        rcases hrec p.1 hmem.1 with ⟨ha1, hn1⟩
        rcases hrec p.2 hmem.2 with ⟨ha2, hn2⟩
        split at he
        · rcases Option.some.inj he with rfl
          exact ⟨⟨p.1, ha1, rfl, hn1⟩, ⟨p.2, ha2, rfl, hn2⟩⟩
        · exact absurd he (by simp)
  · intro s name orc h
    rcases h with ⟨m, hm, hx⟩
    unfold upsertMasterByOrcid
    cases hf : s.masters.find? (fun m => m.primary_orcid == some orc) with
    | some m0 => simp
    | none =>
      exfalso
      have := List.find?_eq_none.1 hf m hm
      rw [hx] at this
      simp at this

/-- Claim C8, witness: one run of `orcidPairState` links both records to an
identifier-keyed master; a second run changes nothing about that identifier's
master count; the generated candidate `(1, 2)` has two unresolved sides; and an
upsert against the run's output keeps the master-table size. -/
theorem resolution_idempotent_witness :
    (countOrcid (resolutionRun (resolutionRun orcidPairState)).masters "0000-0001"
      = countOrcid (resolutionRun orcidPairState).masters "0000-0001") ∧
    ((∃ r ∈ orcidPairState.authors, r.id = 1 ∧ r.master_author_id = none) ∧
     (∃ r ∈ orcidPairState.authors, r.id = 2 ∧ r.master_author_id = none)) ∧
    (upsertMasterByOrcid (resolutionRun orcidPairState) "Ann Li" "0000-0001").1.masters.length
      = (resolutionRun orcidPairState).masters.length :=
  ⟨resolution_idempotent.1 orcidPairState "0000-0001" (by decide),
   resolution_idempotent.2.1 orcidPairState ⟨1, 2, 100⟩ (by decide),
   resolution_idempotent.2.2 (resolutionRun orcidPairState) "Ann Li" "0000-0001"
     (by decide)⟩

/-- Claim C9, counterexample: a composite score exactly equal to the pipeline's
`0.7` threshold satisfies `score ≥ threshold`, yet the decision computed by
`process_disambig_batches` for that score is `"NO_MATCH"` — the code compares
with strict `>`, not the claimed `≥`. -/
theorem decision_at_threshold :
    pipelineDecision (7/10) = "NO_MATCH" ∧ ((7 : ℚ)/10 ≥ 7/10) := by decide

/-- Claim C9 (amended): in `process_disambig_batches` every result's decision
is `"MATCH"` exactly when its score is strictly greater than `0.7`; in
`cluster_and_merge` a pair becomes a graph edge exactly when its total score is
at least (`≥`) the `FINAL_ACCEPT_THRESHOLD` of 70. -/
theorem decision_rule :
    (∀ o d : List String, (process_disambig_batches o d).all
        (fun r => (r.decision == "MATCH") == decide (r.score > 7/10)) = true) ∧
    (∀ (scored : List ScoredCandidate) (a b : Nat),
        (a, b) ∈ acceptedEdges scored ↔
          ∃ c ∈ scored, c.author_id_a = a ∧ c.author_id_b = b ∧
            FINAL_ACCEPT_THRESHOLD ≤ c.total_score) := by
  constructor
  · intro o d
    have hgen : ∀ sc : ℚ, ((pipelineDecision sc == "MATCH") == decide (sc > 7/10)) = true := by
      intro sc
      unfold pipelineDecision
      by_cases h : sc > 7/10 <;> simp [h]
    unfold process_disambig_batches
    rw [List.all_eq_true]
    intro r hr
    rcases List.mem_map.1 hr with ⟨p, _, he⟩
    subst he
    exact hgen _
  · intro scored a b
    constructor
    · intro h
      rcases List.mem_map.1 h with ⟨c, hc, he⟩
      rcases List.mem_filter.1 hc with ⟨hcs, hcond⟩
      rcases Prod.mk.injEq .. ▸ he with ⟨ha, hb⟩
      exact ⟨c, hcs, ha, hb, of_decide_eq_true hcond⟩
    · rintro ⟨c, hc, ha, hb, ht⟩
      apply List.mem_map.2
      exact ⟨c, List.mem_filter.2 ⟨hc, decide_eq_true ht⟩, by rw [ha, hb]⟩

/-- Claim C9, witness: the amended rule instantiated at the mock batch pair
`(["o_002"], ["d_C"])` and at a concrete scored candidate with total score
exactly 70, which is accepted as an edge. -/
theorem decision_rule_witness :
    ((process_disambig_batches ["o_002"] ["d_C"]).all
        (fun r => (r.decision == "MATCH") == decide (r.score > 7/10)) = true) ∧
    ((1, 2) ∈ acceptedEdges [(⟨1, 2, 70, 0, 70⟩ : ScoredCandidate)] ↔
      ∃ c ∈ [(⟨1, 2, 70, 0, 70⟩ : ScoredCandidate)],
        c.author_id_a = 1 ∧ c.author_id_b = 2 ∧
          FINAL_ACCEPT_THRESHOLD ≤ c.total_score) :=
  ⟨decision_rule.1 ["o_002"] ["d_C"],
   decision_rule.2 [⟨1, 2, 70, 0, 70⟩] 1 2⟩

/-- Claim C10 (confirmed): for every candidate pair the batch pipeline scores,
the first profile is built with source `'orcid'` and the second with source
`'dblp'`, so the second profile's `orcid` entry is `None` and
`calculate_id_similarity` — which reads only the `orcid` entries — returns `0`:
a cross-source pair can never fire the `1.0` identifier signal. -/
theorem cross_source_id_signal_zero (a b : String) :
    calculate_id_similarity
      (build_profile_from_db a "orcid") (build_profile_from_db b "dblp") = 0 := rfl

end Disambig
